import Mathlib

/-!
Verification development for the Blackrock entry point
(src/src/blackrock/blackrock.c++): the role-coordination cache
(MachineImpl::becomeStorage / becomeWorker), the slave launch sequence
(Main::runSlave, Main::killExisting) and log-sink address publication
(Main::setLogSink), shallowly embedded as pure Lean functions over
explicit filesystem / process-world state.
-/

namespace Blackrock

/-! ### Filesystem model

Directories and regular files are tracked by absolute path.  `canCreate`
abstracts the environmental conditions (parent present, permissions,
space) under which a `mkdir` syscall would succeed for a path that does
not yet exist; the source ignores `mkdir` failures, so a failed creation
simply leaves the filesystem unchanged. -/

structure FS where
  dirs : List String
  files : List (String × List Nat)
  canCreate : List String
deriving DecidableEq, Repr

/-- `mkdir(path, mode)` with the return value ignored, as in the source
(blackrock.c++ lines 43-45): existing directory means EEXIST which is
dropped; an impossible creation fails silently. -/
def FS.mkdir (fs : FS) (p : String) : FS :=
  if fs.dirs.contains p then fs
  else if fs.canCreate.contains p then { fs with dirs := p :: fs.dirs }
  else fs

def FS.dirExists (fs : FS) (p : String) : Bool :=
  fs.dirs.contains p

def FS.fileExists (fs : FS) (p : String) : Bool :=
  fs.files.any (fun e => e.1 == p)

def FS.readFile (fs : FS) (p : String) : Option (List Nat) :=
  (fs.files.find? (fun e => e.1 == p)).map (fun e => e.2)

/-- Create-or-replace the contents of a regular file. -/
def FS.writeFile (fs : FS) (p : String) (c : List Nat) : FS :=
  { fs with files := (p, c) :: fs.files.filter (fun e => !(e.1 == p)) }

def FS.removeFile (fs : FS) (p : String) : FS :=
  { fs with files := fs.files.filter (fun e => !(e.1 == p)) }

/-- `rename(src, dst)`: atomic replacement of `dst` by `src`. -/
def FS.rename (fs : FS) (src dst : String) : FS :=
  match fs.readFile src with
  | none => fs
  | some c => (fs.removeFile src).writeFile dst c

/-! ### MachineImpl: role-activation cache

Capabilities are modelled by allocation identities (`Nat`); two
capability expressions denote the same live object exactly when their
identities are equal.  The two capability members the source leaves as
`nullptr` (`selfAsSibling`, `restorer`, both `TODO(someday)`) are
modelled as `none`. -/

/-- The storage RoleState bundle (struct `MachineImpl::StorageInfo`). -/
structure StorageInfo where
  selfAsSibling : Option Nat
  rootSet : Nat
  restorer : Option Nat
  factory : Nat
  siblingSet : Nat
  hostedRestorerSet : Nat
  gatewayRestorerSet : Nat
deriving DecidableEq, Repr

/-- The `StorageInfo` constructor body (blackrock.c++ lines 92-101),
given a fresh-identity allocator base: `rootSet` is a freshly
constructed `FilesystemStorage`, `factory` is derived from it by a
factory request (a distinct capability), and the three backend sets are
freshly refcounted `BackendSetImpl`s.  `selfAsSibling` and `restorer`
are null. -/
def StorageInfo.construct (base : Nat) : StorageInfo :=
  { selfAsSibling := none
    rootSet := base
    restorer := none
    factory := base + 1
    siblingSet := base + 2
    hostedRestorerSet := base + 3
    gatewayRestorerSet := base + 4 }

/-- The results struct populated by `becomeStorage`
(blackrock.c++ lines 51-59). -/
structure BecomeStorageResults where
  sibling : Option Nat
  rootSet : Nat
  storageRestorer : Option Nat
  storageFactory : Nat
  siblingSet : Nat
  hostedRestorerSet : Nat
  gatewayRestorerSet : Nat
deriving DecidableEq, Repr

/-- Lines 51-59: copy the cached bundle members into the results;
`kj::addRef` on the three sets returns a handle to the same refcounted
object, hence the same identity. -/
def setStorageResults (info : StorageInfo) : BecomeStorageResults :=
  { sibling := info.selfAsSibling
    rootSet := info.rootSet
    storageRestorer := info.restorer
    storageFactory := info.factory
    siblingSet := info.siblingSet
    hostedRestorerSet := info.hostedRestorerSet
    gatewayRestorerSet := info.gatewayRestorerSet }

/-- `MachineImpl` private state: the two per-role caches plus the
fresh-identity allocator that stands in for heap allocation. -/
structure Machine where
  storageInfo : Option StorageInfo
  worker : Option Nat
  nextId : Nat
deriving DecidableEq, Repr

def storageDirPath : String := "/var/blackrock/storage"

/-- The three `mkdir` calls of the uncached `becomeStorage` branch
(lines 43-45). -/
def mkStorageDirs (fs : FS) : FS :=
  ((fs.mkdir "/var").mkdir "/var/blackrock").mkdir storageDirPath

/-- `MachineImpl::becomeStorage` (lines 36-62).  Cached case: return the
members of the cached `StorageInfo`, touching nothing.  Uncached case:
the three `mkdir` calls, then the `StorageInfo` constructor, whose
`raiiOpen` of the storage directory throws if the directory cannot be
opened; the exception propagates out of the method (a failed promise to
the caller) before `storageInfo` is assigned, so the cache stays empty.
Returned triple: call result, machine state after the call, filesystem
after the call. -/
def Machine.becomeStorage (m : Machine) (fs : FS) :
    Except String BecomeStorageResults × Machine × FS :=
  match m.storageInfo with
  | some info => (.ok (setStorageResults info), m, fs)
  | none =>
      if (mkStorageDirs fs).dirExists storageDirPath then
        (.ok (setStorageResults (StorageInfo.construct m.nextId)),
         { m with storageInfo := some (StorageInfo.construct m.nextId),
                  nextId := m.nextId + 5 },
         mkStorageDirs fs)
      else
        (.error "open storage directory failed", m, mkStorageDirs fs)

/-- `MachineImpl::becomeWorker` (lines 64-77): return the cached worker
capability, or construct a `WorkerImpl`, cache it and return it. -/
def Machine.becomeWorker (m : Machine) : Nat × Machine :=
  match m.worker with
  | some w => (w, m)
  | none => (m.nextId, { m with worker := some m.nextId, nextId := m.nextId + 1 })

/-! ### Slave launch sequence

`Main::runSlave`, `Main::killExisting` and `Main::setLogSink` are
embedded as pure functions over an explicit world (filesystem, pidfile
contents, lock state, process table), emitting an event trace.  Network
addresses are opaque identities (`Nat`); `NetEnv` abstracts name
resolution and the reachability test connection. -/

abbrev Addr := Nat

structure NetEnv where
  resolv : List (String × Addr)
  connectable : List Addr
deriving DecidableEq, Repr

/-- `SimpleAddress::lookup` (and, for `if4:`/`if6:` arguments,
`getInterfaceAddress`): resolution through an environment table; an
absent entry models the resolution failure, which throws. -/
def NetEnv.lookup (env : NetEnv) (s : String) : Option Addr :=
  (env.resolv.find? (fun e => e.1 == s)).map (fun e => e.2)

/-- Whether the test `connect()` to the address succeeds. -/
def NetEnv.canConnect (env : NetEnv) (a : Addr) : Bool :=
  env.connectable.contains a

def LOG_ADDRESS_FILE : String := "/var/run/blackrock-logsink-address"

/-- `kj::str(LOG_ADDRESS_FILE, '~')` (line 191). -/
def logTempFile : String := LOG_ADDRESS_FILE ++ "~"

/-- The raw bytes of the resolved `SimpleAddress` struct, as written by
`write(&address, sizeof(address))`: an opaque fixed-size record,
modelled as two bytes determined by the address identity. -/
def serializeAddr (a : Addr) : List Nat := [a % 256, a / 256 % 256]

/-- Option state accumulated by `Main`'s slave-command argument
callbacks. -/
structure Opts where
  loggingName : Option String
  killedExisting : Bool
  bindAddress : Option Addr
deriving DecidableEq, Repr

def initOpts : Opts := { loggingName := none, killedExisting := false, bindAddress := none }

/-- `arg.findFirst('/')`: split a character list at the first slash,
returning the parts before and after it, or `none` when there is no
slash. -/
def splitAtSlash : List Char → Option (List Char × List Char)
  | [] => none
  | c :: rest =>
      if c = '/' then some ([], rest)
      else
        match splitAtSlash rest with
        | none => none
        | some (pre, post) => some (c :: pre, post)

/-- Lines 172-179: split the `-l` argument at the first slash into the
address part and the logging name; with no slash the name is the null
string pointer. -/
def splitLogArg (arg : String) : String × Option String :=
  match splitAtSlash arg.toList with
  | none => (arg, none)
  | some (pre, post) => (String.mk pre, some (String.mk post))

/-- `Main::setLogSink` (lines 168-198): parse the argument, resolve the
address (throws on failure), open a test connection (throws on failure),
then publish the address record: open `LOG_ADDRESS_FILE ++ "~"` with
`O_WRONLY | O_CREAT | O_EXCL` (EEXIST if the temporary already exists),
write the record, and `rename` it over `LOG_ADDRESS_FILE`.  Besides the
call result, the function returns every intermediate filesystem state
(initial state, temporary file after each written prefix of the record,
state after the rename), so that what a concurrent reader could observe
is explicit. -/
def setLogSink (env : NetEnv) (fs : FS) (o : Opts) (arg : String) :
    Except String (FS × Opts) × List FS :=
  let addrStr := (splitLogArg arg).1
  let name := (splitLogArg arg).2
  match env.lookup addrStr with
  | none => (.error "address lookup failed", [fs])
  | some address =>
      if env.canConnect address then
        if fs.fileExists logTempFile then
          (.error "temporary file exists", [fs])
        else
          let record := serializeAddr address
          let tempStates :=
            (List.range (record.length + 1)).map
              (fun k => fs.writeFile logTempFile (record.take k))
          let fsDone := (fs.writeFile logTempFile record).rename logTempFile LOG_ADDRESS_FILE
          (.ok (fsDone, { o with loggingName := some (name.getD "") }),
           (fs :: tempStates) ++ [fsDone])
      else
        (.error "test connection failed", [fs])

/-- Observable steps of the slave launch sequence. -/
inductive Event where
  | killSent (pid : Nat)
  | flockTry (blocking acquired : Bool)
  | truncatePidfile
  | bindNetwork
  | writePayload
  | daemonize
  | stdoutBytes (bytes : List Nat)
  | exitOk
deriving DecidableEq, Repr

/-- Process-world state for the launch sequence.  `pidfile` is the
content of `/var/run/blackrock-slave` (`none` when absent);
`lockHolder` records whether another live process holds the advisory
lock; `procTable` is the numeric `/proc` listing paired with each
entry's trimmed `comm` contents; `netIdentity` is the serialized
`VatPath` that `network.getSelf()` yields once the endpoint is bound. -/
structure World where
  fs : FS
  pidfile : Option (List Nat)
  lockHolder : Bool
  procTable : List (Nat × String)
  myPid : Nat
  netIdentity : List Nat
deriving DecidableEq, Repr

/-- The pids `Main::killExisting` (lines 213-235) signals: every numeric
`/proc` entry other than the caller itself whose trimmed `comm` content
is `"blackrock"`. -/
def killTargets (procTable : List (Nat × String)) (me : Nat) : List Nat :=
  (procTable.filter (fun e => e.1 != me && e.2 == "blackrock")).map (fun e => e.1)

/-- `Main::killExisting` as an event list: one SIGTERM per target, in
process-table order. -/
def killExistingEvents (w : World) : List Event :=
  (killTargets w.procTable w.myPid).map Event.killSent

inductive Outcome where
  | exitedOk
  | usageError
deriving DecidableEq, Repr

/-- `Main::runSlave` (lines 253-310).  Open-or-create the pidfile;
`flock(LOCK_EX | (killedExisting ? 0 : LOCK_NB))`.  If the non-blocking
attempt fails (another instance holds the lock), dump the pidfile to
stdout and `context.exit()` (successful termination).  Otherwise (the
blocking form waits for the signalled holder to exit, so it acquires):
truncate the pidfile, bind the `VatNetwork`, write the serialized
`VatPath` into the pidfile, fork the daemon child (which serves
forever), dump the pidfile to stdout and exit successfully.
I/O failures on these paths throw and are fatal; they are outside this
model.  (`sendStderrToLogSink`, an external collaborator, runs between
the truncation and the binding when a logging name was set; it does not
touch the pidfile and is not traced.) -/
def runSlave (w : World) (o : Opts) : List Event × World × Outcome :=
  let content0 := w.pidfile.getD []
  if w.lockHolder && !o.killedExisting then
    ([.flockTry false false, .stdoutBytes content0, .exitOk],
     { w with pidfile := some content0 }, .exitedOk)
  else
    ([.flockTry o.killedExisting true, .truncatePidfile, .bindNetwork, .writePayload,
      .daemonize, .stdoutBytes w.netIdentity, .exitOk],
     { w with pidfile := some w.netIdentity, lockHolder := false }, .exitedOk)

/-- Whether the advisory lock is held by this process after the given
trace prefix (flock locks survive until process exit). -/
def lockHeldAfter (evs : List Event) : Bool :=
  evs.any (fun e => match e with
    | .flockTry _ acquired => acquired
    | _ => false)

/-- The pidfile payload after the given trace prefix, starting from
`init`, where `self` is the serialized identity written by
`writePayload`. -/
def payloadAfter (init self : List Nat) (evs : List Event) : List Nat :=
  evs.foldl (fun p e => match e with
    | .truncatePidfile => []
    | .writePayload => self
    | _ => p) init

/-- A serialized network-identity record is never empty; an empty lock
file holds no identity. -/
def validPayload (p : List Nat) : Bool := !p.isEmpty

/-- The slave command's arguments, in command-line order. -/
inductive SlaveArg where
  | logOpt (arg : String)
  | restartOpt
  | bindIp (arg : String)
deriving DecidableEq, Repr

/-- `Main::setBindIp` (lines 200-211): all three branches resolve the
argument to an address (throwing on resolution failure); the `if4:` /
`if6:` interface forms are resolved through the same environment
table. -/
def setBindIp (env : NetEnv) (s : String) : Except String Addr :=
  match env.lookup s with
  | some a => .ok a
  | none => .error "bind address lookup failed"

structure ParseState where
  fs : FS
  opts : Opts
deriving DecidableEq, Repr

/-- One argument-parsing callback.  A thrown exception or a `Validity`
error aborts parsing; either way `kj`'s main wrapper reports it and the
process exits before `runSlave` runs. -/
def processArg (env : NetEnv) (w : World) (st : ParseState) :
    SlaveArg → List Event × Except String ParseState
  | .logOpt a =>
      match setLogSink env st.fs st.opts a with
      | (.ok (fs1, o1), _) => ([], .ok { fs := fs1, opts := o1 })
      | (.error e, _) => ([], .error e)
  | .restartOpt =>
      (killExistingEvents w,
       .ok { st with opts := { st.opts with killedExisting := true } })
  | .bindIp s =>
      match setBindIp env s with
      | .ok a => ([], .ok { st with opts := { st.opts with bindAddress := some a } })
      | .error e => ([], .error e)

/-- Sequential processing of the command line, stopping at the first
failing callback. -/
def processArgs (env : NetEnv) (w : World) :
    ParseState → List SlaveArg → List Event × Except String ParseState
  | st, [] => ([], .ok st)
  | st, a :: rest =>
      match processArg env w st a with
      | (evs, .ok st1) =>
          let tail := processArgs env w st1 rest
          (evs ++ tail.1, tail.2)
      | (evs, .error e) => (evs, .error e)

/-- The slave subcommand end to end: parse the arguments (a failure
exits before any daemon state is created; the required `<bind-ip>`
argument missing is likewise a usage error), then `runSlave`. -/
def slaveMain (env : NetEnv) (w : World) (args : List SlaveArg) :
    List Event × World × Outcome :=
  match processArgs env w { fs := w.fs, opts := initOpts } args with
  | (evs, .error _) => (evs, w, .usageError)
  | (evs, .ok st) =>
      match st.opts.bindAddress with
      | none => (evs, { w with fs := st.fs }, .usageError)
      | some _ =>
          let run := runSlave { w with fs := st.fs } st.opts
          (evs ++ run.1, run.2)

/-! ### Concrete instances used by the witness theorems -/

def machineW0 : Machine := { storageInfo := none, worker := none, nextId := 0 }

def fsW : FS :=
  { dirs := ["/var", "/var/blackrock", "/var/blackrock/storage"], files := [], canCreate := [] }

def fsEmptyW : FS := { dirs := [], files := [], canCreate := [] }

def infoW : StorageInfo := StorageInfo.construct 0

def machineW1 : Machine := { storageInfo := some infoW, worker := none, nextId := 5 }

def resultsW : BecomeStorageResults := setStorageResults infoW

def machineW2 : Machine := { storageInfo := none, worker := some 0, nextId := 1 }

/-! ### Claims about the role-activation cache -/

/-- Claim C1: for each role, every role-activation call after the first
returns the same cached bundle: once `becomeStorage` has succeeded, a
further `becomeStorage` returns the identical results (identity-equal
root set, backend sets, factory and restorer members), the machine state
is untouched and the filesystem is untouched (construction is not
re-run); and a `becomeWorker` call after a first one returns the
identical worker capability with the state untouched. -/
theorem becomeRole_cached (m m1 : Machine) (fs fs1 g : FS) (r : BecomeStorageResults)
    (hs : m.becomeStorage fs = (.ok r, m1, fs1)) :
    m1.becomeStorage g = (.ok r, m1, g) ∧
    ∀ n m2, m.becomeWorker = (n, m2) → m2.becomeWorker = (n, m2) := by
  constructor
  · rw [Machine.becomeStorage] at hs
    split at hs
    · rename_i info heq
      simp only [Prod.mk.injEq, Except.ok.injEq] at hs
      obtain ⟨h1, h2, h3⟩ := hs
      subst h2
      rw [Machine.becomeStorage, heq]
      simp [h1]
    · rename_i heq
      split at hs
      · simp only [Prod.mk.injEq, Except.ok.injEq] at hs
        obtain ⟨h1, h2, h3⟩ := hs
        subst h2
        rw [Machine.becomeStorage]
        simp [h1]
      · simp at hs
  · intro n m2 h
    rw [Machine.becomeWorker] at h
    split at h
    · rename_i w hw
      simp only [Prod.mk.injEq] at h
      obtain ⟨h1, h2⟩ := h
      subst h2
      rw [Machine.becomeWorker, hw]
      simp [h1]
    · rename_i hw
      simp only [Prod.mk.injEq] at h
      obtain ⟨h1, h2⟩ := h
      subst h2
      rw [Machine.becomeWorker]
      simp [h1]

/-- Witness for C1 at a concrete machine and filesystem. -/
theorem becomeRole_cached_witness :
    machineW1.becomeStorage fsEmptyW = (.ok resultsW, machineW1, fsEmptyW) ∧
    machineW2.becomeWorker = (0, machineW2) :=
  ⟨(becomeRole_cached machineW0 machineW1 fsW fsW fsEmptyW resultsW rfl).1,
   (becomeRole_cached machineW0 machineW1 fsW fsW fsEmptyW resultsW rfl).2
     0 machineW2 rfl⟩

/-- Claim C9: role activations are mutually non-interfering on the
cached state: `becomeWorker` leaves the cached storage `storageInfo`
unchanged, and `becomeStorage` leaves the cached `worker` capability
unchanged, whatever the starting state and filesystem. -/
theorem becomeRole_frame (m : Machine) (fs : FS) :
    (m.becomeWorker.2).storageInfo = m.storageInfo ∧
    ((m.becomeStorage fs).2.1).worker = m.worker := by
  constructor
  · rw [Machine.becomeWorker]
    cases m.worker <;> simp
  · rw [Machine.becomeStorage]
    cases m.storageInfo <;> simp
    split <;> simp

/-- Claim C5: when storage activation fails partway (the storage
directory cannot be opened after the creation attempts), the call
returns an error, the storage cache is left unchanged (the machine state
is exactly as before, so the cache is still absent), and a subsequent
`becomeStorage` re-runs construction from scratch (on a filesystem where
the directory can be opened it succeeds and caches a newly constructed
bundle). -/
theorem becomeStorage_failure_not_cached (m : Machine) (fs : FS)
    (h0 : m.storageInfo = none)
    (hfail : (mkStorageDirs fs).dirExists storageDirPath = false) :
    (∃ e, (m.becomeStorage fs).1 = Except.error e) ∧
    (m.becomeStorage fs).2.1 = m ∧
    ∀ g : FS, (mkStorageDirs g).dirExists storageDirPath = true →
      ∃ r g2, (m.becomeStorage fs).2.1.becomeStorage g =
        (Except.ok r,
         { m with storageInfo := some (StorageInfo.construct m.nextId),
                  nextId := m.nextId + 5 }, g2) := by
  have hm : m.becomeStorage fs =
      (.error "open storage directory failed", m, mkStorageDirs fs) := by
    rw [Machine.becomeStorage, h0]
    simp [hfail]
  refine ⟨⟨"open storage directory failed", by rw [hm]⟩, by rw [hm], ?_⟩
  intro g hg
  rw [hm]
  refine ⟨setStorageResults (StorageInfo.construct m.nextId), mkStorageDirs g, ?_⟩
  rw [Machine.becomeStorage, h0]
  simp [hg]

/-- Witness for C5: an empty filesystem where nothing can be created
makes the first activation fail without caching; a filesystem with the
directory tree present lets the retry succeed. -/
theorem becomeStorage_failure_not_cached_witness :
    (∃ e, (machineW0.becomeStorage fsEmptyW).1 = Except.error e) ∧
    (machineW0.becomeStorage fsEmptyW).2.1 = machineW0 ∧
    ∃ r g2, (machineW0.becomeStorage fsEmptyW).2.1.becomeStorage fsW =
      (Except.ok r, machineW1, g2) := by
  have h := becomeStorage_failure_not_cached machineW0 fsEmptyW rfl rfl
  exact ⟨h.1, h.2.1, h.2.2 fsW rfl⟩

/-- Claim C7: creation of the storage directory tree is idempotent: when
the tree already exists, the first `becomeStorage` succeeds and the
filesystem is returned exactly unchanged (no error from the creation
step, no change to any on-disk content). -/
theorem becomeStorage_idempotent_dirs (m : Machine) (fs : FS)
    (h0 : m.storageInfo = none)
    (h1 : fs.dirs.contains "/var" = true)
    (h2 : fs.dirs.contains "/var/blackrock" = true)
    (h3 : fs.dirs.contains storageDirPath = true) :
    ∃ r m1, m.becomeStorage fs = (Except.ok r, m1, fs) := by
  simp at h1 h2 h3
  have hfs : mkStorageDirs fs = fs := by
    simp [mkStorageDirs, FS.mkdir, h1, h2, h3]
  refine ⟨setStorageResults (StorageInfo.construct m.nextId),
    { m with storageInfo := some (StorageInfo.construct m.nextId),
             nextId := m.nextId + 5 }, ?_⟩
  rw [Machine.becomeStorage, h0, hfs]
  simp [FS.dirExists, h3]

/-- Witness for C7 at a concrete filesystem holding the tree. -/
theorem becomeStorage_idempotent_dirs_witness :
    ∃ r m1, machineW0.becomeStorage fsW = (Except.ok r, m1, fsW) :=
  becomeStorage_idempotent_dirs machineW0 fsW rfl rfl rfl rfl

/-! ### Helper lemmas about the filesystem model -/

theorem find_filter_ne (l : List (String × List Nat)) (p q : String) (hqp : q ≠ p) :
    (l.filter (fun e => !(e.1 == p))).find? (fun e => e.1 == q) =
      l.find? (fun e => e.1 == q) := by
  induction l with
  | nil => simp
  | cons e l ih =>
      by_cases h1 : e.1 = p
      · have hep : (e.1 == p) = true := by simp [h1]
        have heq : (e.1 == q) = false := beq_eq_false_iff_ne.mpr (h1 ▸ Ne.symm hqp)
        simp [List.filter_cons, List.find?_cons, hep, heq, ih]
      · have hep : (e.1 == p) = false := beq_eq_false_iff_ne.mpr h1
        by_cases h2 : e.1 = q
        · simp [List.filter_cons, List.find?_cons, hep, h2, hqp]
        · have heq : (e.1 == q) = false := beq_eq_false_iff_ne.mpr h2
          simp [List.filter_cons, List.find?_cons, hep, heq, ih]

theorem readFile_writeFile_ne (fs : FS) (p q : String) (c : List Nat) (hqp : q ≠ p) :
    (fs.writeFile p c).readFile q = fs.readFile q := by
  have hpq : (p == q) = false := beq_eq_false_iff_ne.mpr (Ne.symm hqp)
  simp only [FS.writeFile, FS.readFile]
  rw [List.find?_cons_of_neg _ (by simp [hpq]), find_filter_ne fs.files p q hqp]

theorem readFile_writeFile_self (fs : FS) (p : String) (c : List Nat) :
    (fs.writeFile p c).readFile p = some c := by
  simp only [FS.writeFile, FS.readFile]
  rw [List.find?_cons_of_pos _ (by simp)]
  simp

/-- The two publication paths use distinct files. -/
theorem logTempFile_ne : LOG_ADDRESS_FILE ≠ logTempFile := by decide

/-! ### Concrete instances for the publication and launch witnesses -/

def netEnvW : NetEnv :=
  { resolv := [("sink.example", 300), ("10.0.0.1", 7)], connectable := [300, 7] }

def fsLogW : FS := { dirs := [], files := [(LOG_ADDRESS_FILE, [1, 2])], canCreate := [] }

def fsLogDoneW : FS := { dirs := [], files := [(LOG_ADDRESS_FILE, [44, 1])], canCreate := [] }

def fsTempW : FS :=
  { dirs := [], files := [(logTempFile, [0]), (LOG_ADDRESS_FILE, [1, 2])], canCreate := [] }

def worldW : World :=
  { fs := fsLogW, pidfile := some [7, 7], lockHolder := false,
    procTable := [(1, "blackrock"), (5, "blackrock"), (9, "bash")], myPid := 1,
    netIdentity := [9, 9] }

/-! ### Claims about address publication -/

/-- Claim C6: address publication is atomic with respect to the
well-known path: the record is fully written to the temporary file and
then moved over `LOG_ADDRESS_FILE` by a single rename, so in every
intermediate filesystem state a reader of the well-known path sees
either its prior content or the complete new record (never a partial
record); and on success the final state holds the complete record. -/
theorem setLogSink_atomic_publish (env : NetEnv) (fs : FS) (o : Opts) (arg : String)
    (res : Except String (FS × Opts)) (trace : List FS)
    (h : setLogSink env fs o arg = (res, trace)) :
    (∀ s ∈ trace, s.readFile LOG_ADDRESS_FILE = fs.readFile LOG_ADDRESS_FILE ∨
      ∃ a, env.lookup (splitLogArg arg).1 = some a ∧
        s.readFile LOG_ADDRESS_FILE = some (serializeAddr a)) ∧
    (∀ fs1 o1, res = .ok (fs1, o1) →
      ∃ a, env.lookup (splitLogArg arg).1 = some a ∧
        fs1.readFile LOG_ADDRESS_FILE = some (serializeAddr a)) := by
  rw [setLogSink] at h
  rcases hl : env.lookup (splitLogArg arg).1 with _ | a
  · rw [hl] at h
    simp at h
    obtain ⟨hres, htr⟩ := h
    subst hres htr
    constructor
    · intro s hm
      simp at hm
      subst hm
      exact Or.inl rfl
    · intro fs1 o1 hok
      simp at hok
  · rw [hl] at h
    dsimp only at h
    by_cases hc : env.canConnect a = true
    · by_cases hex : fs.fileExists logTempFile = true
      · rw [if_pos hc, if_pos hex] at h
        simp at h
        obtain ⟨hres, htr⟩ := h
        subst hres htr
        constructor
        · intro s hm
          simp at hm
          subst hm
          exact Or.inl rfl
        · intro fs1 o1 hok
          simp at hok
      · rw [if_pos hc, if_neg hex] at h
        simp only [Prod.mk.injEq] at h
        obtain ⟨hres, htr⟩ := h
        have hdone :
            ((fs.writeFile logTempFile (serializeAddr a)).rename logTempFile
              LOG_ADDRESS_FILE).readFile LOG_ADDRESS_FILE = some (serializeAddr a) := by
          rw [FS.rename, readFile_writeFile_self]
          exact readFile_writeFile_self _ _ _
        constructor
        · intro s hm
          rw [← htr] at hm
          simp only [List.cons_append, List.mem_cons, List.mem_append,
            List.mem_map, List.mem_range, List.not_mem_nil, or_false] at hm
          rcases hm with hm | ⟨k, _, hk⟩ | hm
          · subst hm
            exact Or.inl rfl
          · subst hk
            exact Or.inl (readFile_writeFile_ne fs logTempFile LOG_ADDRESS_FILE _
              logTempFile_ne)
          · subst hm
            exact Or.inr ⟨a, rfl, hdone⟩
        · intro fs1 o1 hok
          rw [← hres] at hok
          simp only [Except.ok.injEq, Prod.mk.injEq] at hok
          obtain ⟨hfs1, _⟩ := hok
          exact ⟨a, rfl, hfs1 ▸ hdone⟩
    · rw [if_neg hc] at h
      simp at h
      obtain ⟨hres, htr⟩ := h
      subst hres htr
      constructor
      · intro s hm
        simp at hm
        subst hm
        exact Or.inl rfl
      · intro fs1 o1 hok
        simp at hok

/-- Witness for C6: the final published state of a concrete run holds
the complete new record. -/
theorem setLogSink_atomic_publish_witness :
    fsLogDoneW.readFile LOG_ADDRESS_FILE = fsLogW.readFile LOG_ADDRESS_FILE ∨
    ∃ a, netEnvW.lookup (splitLogArg "sink.example/n").1 = some a ∧
      fsLogDoneW.readFile LOG_ADDRESS_FILE = some (serializeAddr a) :=
  (setLogSink_atomic_publish netEnvW fsLogW initOpts "sink.example/n" _ _ rfl).1
    fsLogDoneW (by decide)

/-- Claim C10: publication opens its temporary file with exclusive
creation: when the temporary file already exists, `setLogSink` fails
with an error, performs no filesystem mutation at all (the only state a
reader could observe is the unchanged initial one) and in particular
does not complete the replacement of the well-known path. -/
theorem setLogSink_temp_exists_fails (env : NetEnv) (fs : FS) (o : Opts) (arg : String)
    (ad : Addr)
    (hl : env.lookup (splitLogArg arg).1 = some ad)
    (hc : env.canConnect ad = true)
    (hex : fs.fileExists logTempFile = true) :
    ∃ e, setLogSink env fs o arg = (.error e, [fs]) := by
  rw [setLogSink, hl]
  dsimp only
  rw [if_pos hc, if_pos hex]
  exact ⟨"temporary file exists", rfl⟩

/-- Witness for C10 at a concrete filesystem holding a stale temporary
file. -/
theorem setLogSink_temp_exists_fails_witness :
    ∃ e, setLogSink netEnvW fsTempW initOpts "sink.example/n" = (.error e, [fsTempW]) :=
  setLogSink_temp_exists_fails netEnvW fsTempW initOpts "sink.example/n" 300 rfl rfl rfl

/-! ### Claims about the slave launch sequence -/

/-- Claim C3: when the daemon lock is already held by another instance
and the restart flag was not given, the non-blocking launch attempt
terminates successfully (a clean exit, not an error), echoes the running
instance's published identity from the lock payload to standard output,
and leaves the world — in particular the lock payload — unchanged. -/
theorem runSlave_already_running (w : World) (o : Opts) (p : List Nat)
    (hheld : w.lockHolder = true) (hkill : o.killedExisting = false)
    (hp : w.pidfile = some p) :
    runSlave w o = ([.flockTry false false, .stdoutBytes p, .exitOk], w, .exitedOk) := by
  cases w with
  | mk wfs wpf wlh wpt wme wni =>
      simp only at hheld hp
      subst hheld hp
      simp [runSlave, hkill]

/-- Witness for C3 at a concrete held-lock world. -/
theorem runSlave_already_running_witness :
    runSlave { worldW with lockHolder := true } initOpts =
      ([.flockTry false false, .stdoutBytes [7, 7], .exitOk],
       { worldW with lockHolder := true }, .exitedOk) :=
  runSlave_already_running { worldW with lockHolder := true } initOpts [7, 7] rfl rfl rfl

/-- Claim C4: in force-restart mode the launch first signals every other
process whose binary name is this daemon's name (its own pid excluded) —
the kill-target set is exactly those process-table entries — and only
then attempts the lock, in blocking mode (which acquires); the full
trace is the kill events followed by the blocking lock acquisition and
the rest of the launch. -/
theorem slaveMain_restart_kills_then_blocking_lock (env : NetEnv) (w : World)
    (s : String) (a : Addr) (hbind : setBindIp env s = .ok a) :
    slaveMain env w [.restartOpt, .bindIp s] =
      ((killTargets w.procTable w.myPid).map Event.killSent ++
        [.flockTry true true, .truncatePidfile, .bindNetwork, .writePayload,
         .daemonize, .stdoutBytes w.netIdentity, .exitOk],
       { w with pidfile := some w.netIdentity, lockHolder := false }, .exitedOk) ∧
    ∀ q, q ∈ killTargets w.procTable w.myPid ↔
      q ≠ w.myPid ∧ (q, "blackrock") ∈ w.procTable := by
  constructor
  · cases w with
    | mk wfs wpf wlh wpt wme wni =>
        simp [slaveMain, processArgs, processArg, hbind, runSlave, killExistingEvents,
          initOpts]
  · intro q
    simp only [killTargets, List.mem_map, List.mem_filter]
    constructor
    · rintro ⟨⟨q1, c⟩, ⟨hmem, hcond⟩, hq⟩
      simp only at hq
      subst hq
      simp only [Bool.and_eq_true, bne_iff_ne, beq_iff_eq] at hcond
      exact ⟨hcond.1, hcond.2 ▸ hmem⟩
    · rintro ⟨hne, hmem⟩
      exact ⟨(q, "blackrock"), ⟨hmem, by simp [hne]⟩, rfl⟩

/-- Witness for C4 at a concrete world and bind address. -/
theorem slaveMain_restart_kills_then_blocking_lock_witness :
    slaveMain netEnvW worldW [.restartOpt, .bindIp "10.0.0.1"] =
      ((killTargets worldW.procTable worldW.myPid).map Event.killSent ++
        [.flockTry true true, .truncatePidfile, .bindNetwork, .writePayload,
         .daemonize, .stdoutBytes worldW.netIdentity, .exitOk],
       { worldW with pidfile := some worldW.netIdentity, lockHolder := false },
       .exitedOk) ∧
    (5 ∈ killTargets worldW.procTable worldW.myPid ↔
      5 ≠ worldW.myPid ∧ (5, "blackrock") ∈ worldW.procTable) :=
  ⟨(slaveMain_restart_kills_then_blocking_lock netEnvW worldW "10.0.0.1" 7 rfl).1,
   (slaveMain_restart_kills_then_blocking_lock netEnvW worldW "10.0.0.1" 7 rfl).2 5⟩

def worldC2 : World :=
  { fs := fsEmptyW, pidfile := some [7, 7], lockHolder := false,
    procTable := [], myPid := 1, netIdentity := [9, 9] }

/-- Claim C2 counterexample: the claim's consequence that at no point
while the lock is held does the lock file lack a valid serialized
identity is false: on the successful launch path the pidfile is
truncated immediately after lock acquisition and before the network
endpoint is bound, so after the first two steps of a concrete run the
lock is held while the payload is empty (not a valid identity). -/
theorem runSlave_empty_payload_window :
    (runSlave worldC2 initOpts).1.take 2 = [.flockTry false true, .truncatePidfile] ∧
    lockHeldAfter ((runSlave worldC2 initOpts).1.take 2) = true ∧
    validPayload (payloadAfter (worldC2.pidfile.getD []) worldC2.netIdentity
      ((runSlave worldC2 initOpts).1.take 2)) = false := by
  refine ⟨rfl, rfl, rfl⟩

/-- Claim C2 (amended): on every launch path that acquires the lock, the
network endpoint is bound (step 2 of the trace) strictly before the new
payload is written to the lock file and strictly before daemonization
(no payload write or daemonization occurs among the first three
respectively four steps, and both do occur) — but the stronger original
claim fails because the pidfile is truncated at lock acquisition,
leaving an empty-payload window until the payload write (see the
counterexample). -/
theorem runSlave_bind_before_publish (w : World) (o : Opts)
    (hacq : ¬(w.lockHolder = true ∧ o.killedExisting = false)) :
    (runSlave w o).1[2]? = some Event.bindNetwork ∧
    Event.writePayload ∉ (runSlave w o).1.take 3 ∧
    Event.daemonize ∉ (runSlave w o).1.take 4 ∧
    Event.writePayload ∈ (runSlave w o).1 ∧
    Event.daemonize ∈ (runSlave w o).1 := by
  have hcond : (w.lockHolder && !o.killedExisting) = false := by
    cases hl : w.lockHolder <;> cases hk : o.killedExisting <;> simp_all
  rw [runSlave, hcond]
  simp

/-- Witness for the amended C2 on a concrete acquiring run. -/
theorem runSlave_bind_before_publish_witness :
    (runSlave worldC2 initOpts).1[2]? = some Event.bindNetwork ∧
    Event.writePayload ∉ (runSlave worldC2 initOpts).1.take 3 ∧
    Event.daemonize ∉ (runSlave worldC2 initOpts).1.take 4 ∧
    Event.writePayload ∈ (runSlave worldC2 initOpts).1 ∧
    Event.daemonize ∈ (runSlave worldC2 initOpts).1 :=
  runSlave_bind_before_publish worldC2 initOpts (by simp [worldC2])

/-! ### Parse-failure helper lemmas -/

theorem setLogSink_fails_of (env : NetEnv) (fs : FS) (o : Opts) (arg : String)
    (hfail : env.lookup (splitLogArg arg).1 = none ∨
      ∃ ad, env.lookup (splitLogArg arg).1 = some ad ∧ env.canConnect ad = false) :
    ∃ msg, (setLogSink env fs o arg).1 = .error msg := by
  rcases hfail with hl | ⟨ad, hl, hc⟩
  · rw [setLogSink, hl]
    exact ⟨"address lookup failed", rfl⟩
  · rw [setLogSink, hl]
    dsimp only
    rw [if_neg (by simp [hc])]
    exact ⟨"test connection failed", rfl⟩

theorem processArg_events_killSent (env : NetEnv) (w : World) (st : ParseState)
    (a : SlaveArg) (e : Event) (he : e ∈ (processArg env w st a).1) :
    ∃ p, e = Event.killSent p := by
  cases a with
  | logOpt s =>
      rw [processArg] at he
      rcases hls : setLogSink env st.fs st.opts s with ⟨r, tr⟩
      rw [hls] at he
      cases r <;> simp at he
  | restartOpt =>
      rw [processArg] at he
      simp only [killExistingEvents, List.mem_map] at he
      obtain ⟨p, _, hp⟩ := he
      exact ⟨p, hp.symm⟩
  | bindIp s =>
      rw [processArg] at he
      rcases hbs : setBindIp env s with msg | ad <;> rw [hbs] at he <;> simp at he

theorem processArgs_events_killSent (env : NetEnv) (w : World) (args : List SlaveArg) :
    ∀ (st : ParseState) (e : Event), e ∈ (processArgs env w st args).1 →
      ∃ p, e = Event.killSent p := by
  induction args with
  | nil =>
      intro st e he
      simp [processArgs] at he
  | cons a rest ih =>
      intro st e he
      rw [processArgs] at he
      rcases hpa : processArg env w st a with ⟨evs, res⟩
      rw [hpa] at he
      cases res with
      | ok st1 =>
          simp only [List.mem_append] at he
          rcases he with he | he
          · exact processArg_events_killSent env w st a e (by rw [hpa]; exact he)
          · exact ih st1 e he
      | error msg =>
          exact processArg_events_killSent env w st a e (by rw [hpa]; exact he)

theorem processArgs_append (env : NetEnv) (w : World) (xs ys : List SlaveArg) :
    ∀ st : ParseState, processArgs env w st (xs ++ ys) =
      match processArgs env w st xs with
      | (evs, .ok st1) =>
          (evs ++ (processArgs env w st1 ys).1, (processArgs env w st1 ys).2)
      | (evs, .error msg) => (evs, .error msg) := by
  induction xs with
  | nil =>
      intro st
      simp [processArgs]
  | cons x xs ih =>
      intro st
      rw [List.cons_append, processArgs, processArgs]
      rcases hpx : processArg env w st x with ⟨evs, res⟩
      cases res with
      | ok st1 =>
          dsimp only
          rw [ih st1]
          rcases hrest : processArgs env w st1 xs with ⟨evs2, res2⟩
          cases res2 <;> simp
      | error msg => simp

/-- Claim C8: a log-sink target whose address does not resolve or whose
test connection fails makes argument parsing fail: the slave command
exits with a configuration (usage) error, and its whole event trace
contains only the kill signals of a possible restart flag — in
particular no lock attempt, no pidfile truncation, no payload write and
no daemonization (so no role state is ever created, role state existing
only inside the daemon child). -/
theorem slaveMain_logsink_failure_aborts (env : NetEnv) (w : World)
    (pre post : List SlaveArg) (a : String) (evs0 : List Event) (st1 : ParseState)
    (hpre : processArgs env w { fs := w.fs, opts := initOpts } pre = (evs0, .ok st1))
    (hfail : env.lookup (splitLogArg a).1 = none ∨
      ∃ ad, env.lookup (splitLogArg a).1 = some ad ∧ env.canConnect ad = false) :
    (slaveMain env w (pre ++ .logOpt a :: post)).2.2 = Outcome.usageError ∧
    (∀ e, e ∈ (slaveMain env w (pre ++ .logOpt a :: post)).1 →
      ∃ p, e = Event.killSent p) ∧
    (∀ b acq, Event.flockTry b acq ∉ (slaveMain env w (pre ++ .logOpt a :: post)).1) ∧
    Event.daemonize ∉ (slaveMain env w (pre ++ .logOpt a :: post)).1 := by
  obtain ⟨msg, hmsg⟩ := setLogSink_fails_of env st1.fs st1.opts a hfail
  have hstep : processArgs env w st1 (SlaveArg.logOpt a :: post) = ([], .error msg) := by
    rw [processArgs, processArg]
    rcases hls : setLogSink env st1.fs st1.opts a with ⟨r, tr⟩
    rw [hls] at hmsg
    simp only at hmsg
    subst hmsg
    rfl
  have hall : processArgs env w { fs := w.fs, opts := initOpts }
      (pre ++ SlaveArg.logOpt a :: post) = (evs0, .error msg) := by
    rw [processArgs_append env w pre (SlaveArg.logOpt a :: post), hpre]
    dsimp only
    rw [hstep]
    simp
  have hmain : slaveMain env w (pre ++ SlaveArg.logOpt a :: post) =
      (evs0, w, .usageError) := by
    rw [slaveMain, hall]
  refine ⟨by rw [hmain], ?_, ?_, ?_⟩
  · intro e he
    rw [hmain] at he
    exact processArgs_events_killSent env w pre { fs := w.fs, opts := initOpts } e
      (by rw [hpre]; exact he)
  · intro b acq hmem
    rw [hmain] at hmem
    obtain ⟨p, hp⟩ := processArgs_events_killSent env w pre
      { fs := w.fs, opts := initOpts } _ (by rw [hpre]; exact hmem)
    exact Event.noConfusion hp
  · intro hmem
    rw [hmain] at hmem
    obtain ⟨p, hp⟩ := processArgs_events_killSent env w pre
      { fs := w.fs, opts := initOpts } _ (by rw [hpre]; exact hmem)
    exact Event.noConfusion hp

/-- Witness for C8: an unresolvable log-sink target on a concrete world
exits with a usage error and never daemonizes. -/
theorem slaveMain_logsink_failure_aborts_witness :
    (slaveMain netEnvW worldW [SlaveArg.logOpt "nowhere.example/x"]).2.2 =
      Outcome.usageError ∧
    Event.daemonize ∉ (slaveMain netEnvW worldW [SlaveArg.logOpt "nowhere.example/x"]).1 := by
  have h := slaveMain_logsink_failure_aborts netEnvW worldW [] []
    "nowhere.example/x" [] { fs := worldW.fs, opts := initOpts } rfl (Or.inl rfl)
  exact ⟨h.1, h.2.2.2⟩

end Blackrock
